import Mathlib

/-!
Shallow embedding of `zenn-scrap-to-md` (src/main.rs) and verification of the
specification's claims about it.

Conventions of the embedding:
* Rust `String`/`&str` become Lean `String`; byte-index slicing at an ASCII
  marker boundary is rendered as `List Char` slicing (the sliced-out substring
  is identical either way).
* Fallible operations (`Result<T, AppError>`) become `Except AppError T`.
* External effects (WebDriver calls, stdin, HTTP) are passed in explicitly as
  values describing each call's outcome; the functions additionally return the
  ordered list of external calls they performed, so that resource-cleanup and
  single-request properties can be stated.
-/

namespace ZennScrap

/-- Mirrors `enum AppError` in src/main.rs. Payload details irrelevant to the
claims are reduced: `Http` carries the HTTP status code when the underlying
reqwest error has one (the `error_for_status` path) and `none` for
transport/decode errors; `NewSession` and `WebDriver` drop the foreign error
payloads. -/
inductive AppError where
  | NewSession
  | WebDriver
  | Http (status : Option Nat)
  | Io
  | MissingEnv (name : String)
  | BadSlug
deriving DecidableEq, Repr

instance {ε α : Type} [DecidableEq ε] [DecidableEq α] : DecidableEq (Except ε α) :=
  fun x y =>
    match x, y with
    | .ok a, .ok b =>
      if h : a = b then .isTrue (by rw [h]) else .isFalse (by simp [h])
    | .error a, .error b =>
      if h : a = b then .isTrue (by rw [h]) else .isFalse (by simp [h])
    | .ok _, .error _ => .isFalse (by simp)
    | .error _, .ok _ => .isFalse (by simp)

/-! ## Slug extraction (`extract_slug`, src/main.rs lines 59-68) -/

/-- Rust `input.trim_end_matches('/')`: remove every trailing `'/'`. -/
def trimEndSlashes (l : List Char) : List Char :=
  (l.reverse.dropWhile (fun c => c = '/')).reverse

/-- The literal marker `"/scraps/"` searched by `trimmed.find("/scraps/")`. -/
def scrapsMarker : List Char := "/scraps/".data

/-- Index of the first occurrence of `pat` in `l` (Rust `str::find` on an
ASCII pattern; char index and byte index cut out the same suffix). -/
def findSub (pat : List Char) : List Char → Option Nat
  | [] => if pat.isPrefixOf ([] : List Char) then some 0 else none
  | c :: cs =>
    if pat.isPrefixOf (c :: cs) then some 0
    else (findSub pat cs).map (· + 1)

/-- Mirrors `fn extract_slug` in src/main.rs:
trim trailing `'/'`; if `"/scraps/"` occurs, return everything after its first
occurrence (`trimmed[(pos + 8)..]`); otherwise return the trimmed input when
non-empty, else fail with `BadSlug`. -/
def extract_slug (input : String) : Except AppError String :=
  let trimmed := trimEndSlashes input.data
  match findSub scrapsMarker trimmed with
  | some pos => .ok ⟨trimmed.drop (pos + 8)⟩
  | none =>
    if !trimmed.isEmpty then .ok ⟨trimmed⟩
    else .error AppError.BadSlug

/-! ## Image-directive rewrite (the regex at src/main.rs line 112)

The regex is `!\[\]\((?P<url>[^ )]+)(?: =(?P<width>\d+)x)?\)` applied with
`replace_all` (leftmost, non-overlapping matches). Because `[^ )]+` excludes
exactly the two characters a successful continuation needs (`' '` and `')'`),
the greedy scan below is exact: giving back characters from the url can never
turn a failed continuation into a successful one, and the greedy digit run
followed by `'x'` is likewise exact. `\d` is embedded as the ASCII digits. -/

/-- Character class `[^ )]` of the url group. -/
def isUrlChar (c : Char) : Bool := !(c = ' ' || c = ')')

/-- Replacement `<img src="{url}">` for a match without width suffix. -/
def imgNoWidth (url : List Char) : List Char :=
  "<img src=\"".data ++ url ++ "\">".data

/-- Replacement `<img src="{url}" width="{w}">` for a match with width. -/
def imgWidth (url w : List Char) : List Char :=
  "<img src=\"".data ++ url ++ "\" width=\"".data ++ w ++ "\">".data

/-- Attempt to match the image directive at the head of `s`. On success,
returns the replacement text and the remainder of the input after the match. -/
def tryMatch : List Char → Option (List Char × List Char)
  | '!' :: '[' :: ']' :: '(' :: rest =>
    match rest.span isUrlChar with
    | (url, rest2) =>
      if url.isEmpty then none
      else
        match rest2 with
        | ')' :: rest3 => some (imgNoWidth url, rest3)
        | ' ' :: '=' :: rest3 =>
          match rest3.span Char.isDigit with
          | (w, rest4) =>
            if w.isEmpty then none
            else
              match rest4 with
              | 'x' :: ')' :: rest5 => some (imgWidth url w, rest5)
              | _ => none
        | _ => none
  | _ => none

/-- One left-to-right `replace_all` pass, fuelled by the input length (each
step consumes at least one character, so `l.length` fuel always suffices). -/
def replaceAllAux : Nat → List Char → List Char
  | 0, l => l
  | _ + 1, [] => []
  | fuel + 1, c :: cs =>
    match tryMatch (c :: cs) with
    | some (repl, rest) => repl ++ replaceAllAux fuel rest
    | none => c :: replaceAllAux fuel cs

/-- Mirrors `img_re.replace_all(&comment.body_markdown, ...)`. -/
def rewriteBody (s : String) : String :=
  ⟨replaceAllAux s.data.length s.data⟩

/-- Decides that no suffix of `l` begins with an image-directive match, i.e.
the text contains no directive occurrence at all. -/
def noDirectiveB : List Char → Bool
  | [] => true
  | c :: cs => (tryMatch (c :: cs)).isNone && noDirectiveB cs

/-! ## Data model (`struct Scrap`, `struct Comment`, src/main.rs lines 43-56)

Rust's `Vec<Comment>` inside `Comment` is rendered as the mutually inductive
`CommentList` so that structural recursion and induction over the tree are
available; `CommentList` is isomorphic to `List Comment`. -/

mutual
inductive Comment : Type where
  | mk (author created_at body_markdown : String) (children : CommentList)
deriving DecidableEq
inductive CommentList : Type where
  | nil
  | cons (head : Comment) (tail : CommentList)
deriving DecidableEq
end

/-- Mirrors `struct Scrap`. -/
structure Scrap where
  title : String
  comments : CommentList
deriving DecidableEq

mutual
/-- Number of comments in a tree (the node and all its descendants). -/
def commentSize : Comment → Nat
  | .mk _ _ _ ch => 1 + commentsSize ch

/-- Number of comments in a forest. -/
def commentsSize : CommentList → Nat
  | .nil => 0
  | .cons c rest => commentSize c + commentsSize rest
end

/-! ## Markdown rendering (`render_comments`, src/main.rs lines 110-145) -/

/-- The header line emitted for a comment when `skip_header` is false:
`format!("**{} ({})**\n\n", comment.author, comment.created_at)`. -/
def headerStr (author created_at : String) : String :=
  "**" ++ author ++ " (" ++ created_at ++ ")**\n\n"

mutual
/-- Mirrors the body of the `for` loop of `render_comments` for one comment:
optional header, rewritten body plus blank line, then the recursive call on
`children` when non-empty. The trailing separator of the loop is handled by
`render_comments`. -/
def renderComment (skip_header : Bool) : Comment → String
  | .mk author created_at body_markdown children =>
    (if !skip_header then headerStr author created_at else "")
    ++ rewriteBody body_markdown ++ "\n\n"
    ++ (match children with
        | .nil => ""
        | .cons _ _ => render_comments children skip_header)

/-- Mirrors `fn render_comments` (the `out` accumulator becomes the returned
string): render each comment in order and, when `skip_header` is false and the
comment is not the last of the slice (`i < comments.len() - 1`), append the
horizontal rule `"---\n\n"` after its subtree. -/
def render_comments : CommentList → Bool → String
  | .nil, _ => ""
  | .cons c rest, skip_header =>
    renderComment skip_header c
    ++ (if !skip_header then
          (match rest with | .nil => "" | .cons _ _ => "---\n\n")
        else "")
    ++ render_comments rest skip_header
end

/-- Mirrors `fn render_markdown`: title heading, backlink line, comments. -/
def render_markdown (scrap : Scrap) (url : String) (skip_header : Bool) : String :=
  "# " ++ scrap.title ++ "\n\n"
  ++ "Original: [" ++ (url.replace "https://zenn.dev/" "") ++ "](" ++ url ++ ")\n\n"
  ++ render_comments scrap.comments skip_header

/-! ### Token view of the renderer

To state provenance properties ("no line produced from the header pattern",
"exactly one header per comment") the renderer is refined to a list of emitted
chunks; `render_comments_toks_spec` below proves that concatenating the chunks
reproduces `render_comments` exactly. -/

/-- One emitted chunk of `render_comments`. -/
inductive RTok where
  | header (author created_at : String)
  | body (s : String)
  | sep
deriving DecidableEq

/-- The text of a chunk. The header chunk is the bold header line immediately
followed by a blank line; the body chunk is the rewritten body followed by a
blank line; `sep` is the horizontal rule line followed by a blank line. -/
def tokStr : RTok → String
  | .header a t => headerStr a t
  | .body s => s ++ "\n\n"
  | .sep => "---\n\n"

/-- Concatenate the chunks. -/
def joinToks (ts : List RTok) : String :=
  ts.foldr (fun t acc => tokStr t ++ acc) ""

mutual
/-- Chunk-level version of `renderComment`. -/
def commentToks (skip_header : Bool) : Comment → List RTok
  | .mk author created_at body_markdown children =>
    (if !skip_header then [RTok.header author created_at] else [])
    ++ [RTok.body (rewriteBody body_markdown)]
    ++ (match children with
        | .nil => []
        | .cons _ _ => commentsToks children skip_header)

/-- Chunk-level version of `render_comments`. -/
def commentsToks : CommentList → Bool → List RTok
  | .nil, _ => []
  | .cons c rest, skip_header =>
    commentToks skip_header c
    ++ (if !skip_header then
          (match rest with | .nil => [] | .cons _ _ => [RTok.sep])
        else [])
    ++ commentsToks rest skip_header
end

/-- Is the chunk a header chunk? -/
def isHeaderTok : RTok → Bool
  | .header _ _ => true
  | _ => false

/-- Is the chunk a separator chunk? -/
def isSepTok : RTok → Bool
  | .sep => true
  | _ => false

/-! ## Credential resolution (the if-chain in `main`, src/main.rs lines 162-169) -/

/-- Which of the three sources the cookie if-chain in `main` selects. -/
inductive CookieSource where
  | cliArg
  | envVar
  | manualLogin
deriving DecidableEq

/-- The source selected by the if-chain of `main` for a given pair of
(CLI `--cookie` argument, `ZENN_AUTH_COOKIE` environment value). -/
def cookieSource (cliCookie envCookie : Option String) : CookieSource :=
  match cliCookie with
  | some _ => .cliArg
  | none =>
    match envCookie with
    | some _ => .envVar
    | none => .manualLogin

/-- Mirrors the cookie selection of `main`: `args.cookie` first, else
`env::var("ZENN_AUTH_COOKIE")` when present, else the outcome of
`manual_login_cookie().await?` (passed in as `manual`, consulted only in the
last branch). -/
def resolveCookie (cliCookie envCookie : Option String)
    (manual : Except AppError String) : Except AppError String :=
  match cliCookie with
  | some c => .ok c
  | none =>
    match envCookie with
    | some envc => .ok envc
    | none => manual

/-! ## Interactive login (`manual_login_cookie`, src/main.rs lines 70-93) -/

/-- Outcomes of the external calls `manual_login_cookie` may perform, in
program order: `Client::new` (session creation), `client.goto`,
`io::stdin().read_line`, `client.get_all_cookies` (yielding the
`(name, value)` cookie pairs on success) and `client.close`. -/
structure AutomationEnv where
  newSession : Except AppError Unit
  goto : Except AppError Unit
  readLine : Except AppError Unit
  getAllCookies : Except AppError (List (String × String))
  closeSession : Except AppError Unit
deriving DecidableEq

/-- Names of the external calls, for recording the performed-call trace. -/
inductive ACall where
  | newSession
  | goto
  | readLine
  | getAllCookies
  | closeSession
deriving DecidableEq

/-- Mirrors `fn manual_login_cookie`, additionally returning the ordered list
of external calls performed (a call appears in the trace when it was issued,
whether or not it succeeded). Each `?` of the source propagates its error
immediately, so a failure of `goto`, `read_line` or `get_all_cookies` returns
before `client.close()` is reached. On the straight-line path the cookies are
read, the session is closed, and only then is the `_zenn_session` cookie
looked up: if found the result is `"_zenn_session=" ++ value`, otherwise
`AppError::BadSlug` — the same variant `extract_slug` fails with. -/
def manual_login_cookie (env : AutomationEnv) : List ACall × Except AppError String :=
  match env.newSession with
  | .error e => ([.newSession], .error e)
  | .ok _ =>
    match env.goto with
    | .error e => ([.newSession, .goto], .error e)
    | .ok _ =>
      match env.readLine with
      | .error e => ([.newSession, .goto, .readLine], .error e)
      | .ok _ =>
        match env.getAllCookies with
        | .error e => ([.newSession, .goto, .readLine, .getAllCookies], .error e)
        | .ok cookies =>
          match env.closeSession with
          | .error e =>
            ([.newSession, .goto, .readLine, .getAllCookies, .closeSession], .error e)
          | .ok _ =>
            ([.newSession, .goto, .readLine, .getAllCookies, .closeSession],
             match cookies.find? (fun c => c.1 == "_zenn_session") with
             | some c => .ok ("_zenn_session=" ++ c.2)
             | none => .error AppError.BadSlug)

/-! ## Fetching (`fetch_scrap`, src/main.rs lines 96-107) -/

/-- An HTTP request as `fetch_scrap` builds one: URL plus header list. -/
structure Request where
  url : String
  headers : List (String × String)
deriving DecidableEq

/-- The HTTP response received by the single `GET`: its status code, and its
body as `some scrap` when it deserializes into `Scrap`, `none` when it does
not (serde itself is external to the embedding). -/
structure HttpResponse where
  status : Nat
  body : Option Scrap
deriving DecidableEq

/-- reqwest's `StatusCode::is_success`: the 2xx range. -/
def isSuccessStatus (st : Nat) : Bool := 200 ≤ st && st < 300

/-- Mirrors `fn fetch_scrap`, returning the ordered list of requests issued
alongside the result. Exactly one
`GET https://zenn.dev/api/scraps/{slug}/blob.json` carrying the `cookie`
header is issued. A non-success status fails with the `Http` error carrying
that status (`resp.error_for_status().unwrap_err()`); a success status whose
body does not deserialize fails with the status-less `Http` error
(the `?` on `resp.json().await`). -/
def fetch_scrap (slug cookie : String) (resp : HttpResponse) :
    List Request × Except AppError Scrap :=
  let url := "https://zenn.dev/api/scraps/" ++ slug ++ "/blob.json"
  let req : Request := ⟨url, [("cookie", cookie)]⟩
  if !isSuccessStatus resp.status then
    ([req], .error (AppError.Http (some resp.status)))
  else
    match resp.body with
    | some scrap => ([req], .ok scrap)
    | none => ([req], .error (AppError.Http none))

/-! ## Helper lemmas -/

theorem joinToks_nil : joinToks [] = "" := rfl

theorem joinToks_cons (t : RTok) (ts : List RTok) :
    joinToks (t :: ts) = tokStr t ++ joinToks ts := rfl

theorem joinToks_append (a b : List RTok) :
    joinToks (a ++ b) = joinToks a ++ joinToks b := by
  induction a with
  | nil => simp [joinToks, String.empty_append]
  | cons t ts ih => simp only [List.cons_append, joinToks_cons, ih, String.append_assoc]

theorem replaceAllAux_noDirective :
    ∀ l : List Char, noDirectiveB l = true → ∀ fuel, replaceAllAux fuel l = l := by
  intro l
  induction l with
  | nil => intro _ fuel; cases fuel <;> rfl
  | cons c cs ih =>
    intro h fuel
    cases fuel with
    | zero => rfl
    | succ f =>
      rw [noDirectiveB] at h
      obtain ⟨h1, h2⟩ := Bool.and_eq_true_iff.mp h
      rw [replaceAllAux, Option.isNone_iff_eq_none.mp h1]
      exact congrArg (c :: ·) (ih h2 f)

theorem rewriteBody_noDirective (s : String) (h : noDirectiveB s.data = true) :
    rewriteBody s = s := by
  cases s with
  | mk data => exact congrArg String.mk (replaceAllAux_noDirective data h data.length)

theorem fetch_scrap_requests (slug cookie : String) (resp : HttpResponse) :
    (fetch_scrap slug cookie resp).1 =
      [⟨"https://zenn.dev/api/scraps/" ++ slug ++ "/blob.json", [("cookie", cookie)]⟩] := by
  unfold fetch_scrap
  dsimp only
  split
  · rfl
  · split <;> rfl

/-! ## Claims -/

/-- Claim C2: credential precedence. For every pair (explicit CLI cookie,
environment cookie): a present explicit cookie is resolved as-is regardless of
the environment value; an absent explicit cookie with a present environment
value resolves to the environment value; and the interactive manual-login
source is selected if and only if both are absent, in which case the
resolution is exactly the interactive outcome. -/
theorem C2_cookie_precedence :
    ∀ (cliCookie envCookie : Option String) (manual : Except AppError String),
      (∀ c, cliCookie = some c → resolveCookie cliCookie envCookie manual = .ok c) ∧
      (cliCookie = none → ∀ e, envCookie = some e →
        resolveCookie cliCookie envCookie manual = .ok e) ∧
      (cookieSource cliCookie envCookie = .manualLogin ↔
        cliCookie = none ∧ envCookie = none) ∧
      (cliCookie = none → envCookie = none →
        resolveCookie cliCookie envCookie manual = manual) := by
  intro cliCookie envCookie manual
  cases cliCookie <;> cases envCookie <;>
    simp [resolveCookie, cookieSource]

/-- Witness for C2 at concrete inputs. -/
theorem C2_cookie_precedence_witness :
    resolveCookie (some "c") (some "e") (.ok "m") = .ok "c" ∧
    resolveCookie none (some "e") (.ok "m") = .ok "e" ∧
    cookieSource none none = .manualLogin :=
  ⟨(C2_cookie_precedence (some "c") (some "e") (.ok "m")).1 "c" rfl,
   (C2_cookie_precedence none (some "e") (.ok "m")).2.1 rfl "e" rfl,
   ((C2_cookie_precedence none none (.ok "m")).2.2.1).mpr ⟨rfl, rfl⟩⟩

/-- Claim C3: the image rewrite turns the width form
`![](https://x/img.png =200x)` into `<img src="https://x/img.png" width="200">`,
the no-width form into `<img src="https://x/img.png">`, rewrites every
occurrence (two directives with surrounding text), and leaves any text
containing no directive occurrence unchanged. -/
theorem C3_image_rewrite :
    rewriteBody "![](https://x/img.png =200x)" =
      "<img src=\"https://x/img.png\" width=\"200\">" ∧
    rewriteBody "![](https://x/img.png)" = "<img src=\"https://x/img.png\">" ∧
    rewriteBody "see ![](https://x/a.png) and ![](https://x/b.png =42x), done" =
      "see <img src=\"https://x/a.png\"> and <img src=\"https://x/b.png\" width=\"42\">, done" ∧
    (∀ s : String, noDirectiveB s.data = true → rewriteBody s = s) :=
  ⟨by decide, by decide, by decide, fun s h => rewriteBody_noDirective s h⟩

/-- Witness for C3's directive-free clause at a concrete input. -/
theorem C3_image_rewrite_witness :
    rewriteBody "plain text with ! [ ] ( pieces ) but no directive" =
      "plain text with ! [ ] ( pieces ) but no directive" :=
  C3_image_rewrite.2.2.2 "plain text with ! [ ] ( pieces ) but no directive" (by decide)

/-- Claim C7 (code bug): after the interactive wait, when the enumerated
cookies contain no `_zenn_session` cookie the code fails with
`AppError::BadSlug` — the very error variant `extract_slug` fails with, whose
message reads "Invalid scrap URL or slug" — not a dedicated
session-cookie-not-found kind. When the cookie is present the credential is
the claimed `name=value` pairing `"_zenn_session=<value>"`. -/
theorem C7_missing_cookie_error :
    (manual_login_cookie ⟨.ok (), .ok (), .ok (), .ok [("other", "v")], .ok ()⟩).2 =
      .error AppError.BadSlug ∧
    extract_slug "" = .error AppError.BadSlug ∧
    (manual_login_cookie ⟨.ok (), .ok (), .ok (), .ok [("_zenn_session", "v")], .ok ()⟩).2 =
      .ok "_zenn_session=v" := by
  refine ⟨rfl, by decide, rfl⟩

/-- Claim C8: a fetch whose response has a non-success status fails with the
HTTP error carrying that numeric status, issues exactly one request, and
returns no Scrap value. -/
theorem C8_fetch_failed :
    ∀ (slug cookie : String) (resp : HttpResponse),
      isSuccessStatus resp.status = false →
      (fetch_scrap slug cookie resp).2 = .error (AppError.Http (some resp.status)) ∧
      (fetch_scrap slug cookie resp).1.length = 1 ∧
      ∀ scrap, (fetch_scrap slug cookie resp).2 ≠ .ok scrap := by
  intro slug cookie resp h
  refine ⟨?_, ?_, ?_⟩
  · simp [fetch_scrap, h]
  · rw [fetch_scrap_requests]; rfl
  · intro scrap
    simp [fetch_scrap, h]

/-- Witness for C8 at a concrete 404 response. -/
theorem C8_fetch_failed_witness :
    (fetch_scrap "s" "c" ⟨404, none⟩).2 = .error (AppError.Http (some 404)) ∧
    (fetch_scrap "s" "c" ⟨404, none⟩).1.length = 1 :=
  ⟨(C8_fetch_failed "s" "c" ⟨404, none⟩ (by decide)).1,
   (C8_fetch_failed "s" "c" ⟨404, none⟩ (by decide)).2.1⟩

/-- Claim C9, counterexample: the claim says the automation session is closed
on every exit path after the session was created, but when `client.goto` fails
the `?` operator propagates the error before `client.close()` is reached: the
performed-call trace contains no close call. -/
theorem C9_close_counterexample :
    (AutomationEnv.mk (.ok ()) (.error AppError.WebDriver) (.ok ()) (.ok []) (.ok ())).newSession
        = .ok () ∧
    ACall.closeSession ∉
      (manual_login_cookie
        ⟨.ok (), .error AppError.WebDriver, .ok (), .ok [], .ok ()⟩).1 := by
  refine ⟨rfl, by decide⟩

/-- Claim C9 as amended: the session close is reached exactly when navigation,
the operator-input read and cookie enumeration all succeed; in particular the
session is closed on the success path and on the missing-session-cookie path
(the close precedes the cookie lookup), but a failure of an intermediate
automation call returns without closing the session. -/
theorem C9_close_on_completed_paths :
    ∀ env : AutomationEnv,
      env.newSession = .ok () →
      env.goto = .ok () →
      env.readLine = .ok () →
      (∃ cs, env.getAllCookies = .ok cs) →
      ACall.closeSession ∈ (manual_login_cookie env).1 := by
  intro env hn hg hr hc
  obtain ⟨cs, hcs⟩ := hc
  cases env
  simp only at hn hg hr hcs
  subst hn; subst hg; subst hr; subst hcs
  rename_i closeRes
  cases closeRes <;> simp [manual_login_cookie]

/-- Witness for the amended C9 on the missing-cookie path. -/
theorem C9_close_on_completed_paths_witness :
    ACall.closeSession ∈
      (manual_login_cookie ⟨.ok (), .ok (), .ok (), .ok [], .ok ()⟩).1 :=
  C9_close_on_completed_paths ⟨.ok (), .ok (), .ok (), .ok [], .ok ()⟩
    rfl rfl rfl ⟨[], rfl⟩

/-- Claim C10: the resolved credential is never absent — either a cookie
string is resolved or the program errors with the interactive path's error —
and the single request the fetcher issues always carries the `cookie` header
with the resolved credential; no anonymous-request path exists. -/
theorem C10_cookie_always_sent :
    (∀ (slug cookie : String) (resp : HttpResponse) (r : Request),
       r ∈ (fetch_scrap slug cookie resp).1 → ("cookie", cookie) ∈ r.headers) ∧
    (∀ (slug cookie : String) (resp : HttpResponse),
       (fetch_scrap slug cookie resp).1.length = 1) ∧
    (∀ manual, resolveCookie none none manual = manual) ∧
    (∀ (cliCookie envCookie : Option String) (manual : Except AppError String),
       (∃ v, resolveCookie cliCookie envCookie manual = .ok v) ∨
       (∃ e, manual = .error e ∧
         resolveCookie cliCookie envCookie manual = .error e)) := by
  refine ⟨?_, ?_, ?_, ?_⟩
  · intro slug cookie resp r hr
    rw [fetch_scrap_requests] at hr
    rcases List.mem_singleton.mp hr with rfl
    exact List.mem_singleton.mpr rfl
  · intro slug cookie resp
    rw [fetch_scrap_requests]; rfl
  · intro manual; rfl
  · intro cliCookie envCookie manual
    cases cliCookie with
    | some c => exact Or.inl ⟨c, rfl⟩
    | none =>
      cases envCookie with
      | some e => exact Or.inl ⟨e, rfl⟩
      | none =>
        cases manual with
        | ok v => exact Or.inl ⟨v, rfl⟩
        | error e => exact Or.inr ⟨e, rfl, rfl⟩

/-- Witness for C10's header clause at a concrete request. -/
theorem C10_cookie_always_sent_witness :
    ("cookie", "c") ∈
      (Request.mk ("https://zenn.dev/api/scraps/s/blob.json") [("cookie", "c")]).headers :=
  C10_cookie_always_sent.1 "s" "c" ⟨404, none⟩
    ⟨"https://zenn.dev/api/scraps/s/blob.json", [("cookie", "c")]⟩ (by decide)

theorem joinToks_sepToks (skip_header : Bool) (rest : CommentList) :
    (if !skip_header then
      (match rest with
        | CommentList.nil => ""
        | CommentList.cons _ _ => "---\n\n")
    else "") =
    joinToks (if !skip_header then
      (match rest with
        | CommentList.nil => ([] : List RTok)
        | CommentList.cons _ _ => [RTok.sep])
    else []) := by
  cases skip_header <;> cases rest <;>
    simp [joinToks_cons, joinToks_nil, tokStr, String.append_empty]

mutual
theorem renderComment_eq_toks (skip_header : Bool) (c : Comment) :
    renderComment skip_header c = joinToks (commentToks skip_header c) := by
  cases c with
  | mk a t b ch =>
    cases ch with
    | nil =>
      cases skip_header <;>
        simp [renderComment, commentToks, joinToks_cons, joinToks_nil, tokStr,
          String.append_assoc, String.append_empty, String.empty_append]
    | cons c' rest =>
      have ih := render_comments_eq_toks (.cons c' rest) skip_header
      rw [renderComment, commentToks]
      rw [joinToks_append, joinToks_append, ih]
      cases skip_header <;>
        simp [joinToks_cons, joinToks_nil, tokStr, String.append_assoc,
          String.append_empty, String.empty_append]

theorem render_comments_eq_toks (l : CommentList) (skip_header : Bool) :
    render_comments l skip_header = joinToks (commentsToks l skip_header) := by
  cases l with
  | nil => rfl
  | cons c rest =>
    have ih1 := renderComment_eq_toks skip_header c
    have ih2 := render_comments_eq_toks rest skip_header
    rw [render_comments.eq_def, commentsToks.eq_def]
    dsimp only
    rw [joinToks_append, joinToks_append, ih1, ih2, joinToks_sepToks skip_header rest]
end

mutual
theorem commentToks_headerCount (skip_header : Bool) (c : Comment) :
    (commentToks skip_header c).countP isHeaderTok =
      if skip_header then 0 else commentSize c := by
  cases c with
  | mk a t b ch =>
    cases ch with
    | nil =>
      cases skip_header <;>
        simp [commentToks, commentSize, commentsSize, List.countP_append,
          List.countP_cons, isHeaderTok]
    | cons c' rest =>
      have ih := commentsToks_headerCount skip_header (.cons c' rest)
      cases skip_header with
      | false =>
        simp_all [commentToks, commentSize, List.countP_append,
          List.countP_cons, isHeaderTok]
        omega
      | true =>
        simp_all [commentToks, commentSize, List.countP_append,
          List.countP_cons, isHeaderTok]

theorem commentsToks_headerCount (skip_header : Bool) (l : CommentList) :
    (commentsToks l skip_header).countP isHeaderTok =
      if skip_header then 0 else commentsSize l := by
  cases l with
  | nil => cases skip_header <;> rfl
  | cons c rest =>
    have ih1 := commentToks_headerCount skip_header c
    have ih2 := commentsToks_headerCount skip_header rest
    cases rest <;> cases skip_header <;>
      simp_all [commentsToks, commentsSize, List.countP_append,
        List.countP_cons, isHeaderTok, isSepTok]
end

/-- Claim C4: header suppression. Factoring the renderer into its emitted
chunks (`render_comments` is exactly the concatenation of `commentsToks`, the
third conjunct), with `skip_header = true` no chunk of any comment at any
depth is a header chunk, while with `skip_header = false` the number of header
chunks equals the number of comments in the forest — exactly one per comment —
and a header chunk's text is the bold `**author (created_at)**` line
immediately followed by a blank line. -/
theorem C4_header_suppression :
    (∀ l : CommentList, (commentsToks l true).countP isHeaderTok = 0) ∧
    (∀ l : CommentList, (commentsToks l false).countP isHeaderTok = commentsSize l) ∧
    (∀ (l : CommentList) (skip_header : Bool),
       render_comments l skip_header = joinToks (commentsToks l skip_header)) ∧
    (∀ a t : String,
       tokStr (RTok.header a t) = ("**" ++ a ++ " (" ++ t ++ ")**") ++ "\n\n") := by
  refine ⟨?_, ?_, ?_, ?_⟩
  · intro l; simpa using commentsToks_headerCount true l
  · intro l; simpa using commentsToks_headerCount false l
  · intro l skip_header; exact render_comments_eq_toks l skip_header
  · intro a t
    show headerStr a t = _
    have h : (")**\n\n" : String) = ")**" ++ "\n\n" := by decide
    rw [headerStr, h]
    simp [String.append_assoc]

/-- Claim C1 (code bug): the separator is emitted between siblings at every
recursion depth, not only between top-level siblings. The failing input is a
forest with a single top-level comment whose subtree has two children: the
claim requires no horizontal rule anywhere (there is no pair of top-level
siblings), but the rendered output contains `---` between the two nested
children, and the chunk stream contains exactly one separator chunk. -/
theorem C1_nested_separator :
    render_comments
      (.cons (.mk "a" "t0" "p"
        (.cons (.mk "b" "t1" "c1" .nil) (.cons (.mk "c" "t2" "c2" .nil) .nil))) .nil)
      false =
      "**a (t0)**\n\np\n\n**b (t1)**\n\nc1\n\n---\n\n**c (t2)**\n\nc2\n\n" ∧
    (commentsToks
      (.cons (.mk "a" "t0" "p"
        (.cons (.mk "b" "t1" "c1" .nil) (.cons (.mk "c" "t2" "c2" .nil) .nil))) .nil)
      false).countP isSepTok = 1 := by
  refine ⟨by decide, by decide⟩

theorem findSub_isPrefixOf {pat : List Char} :
    ∀ {l : List Char} {pos : Nat}, findSub pat l = some pos →
      pat.isPrefixOf (l.drop pos) = true := by
  intro l
  induction l with
  | nil =>
    intro pos h
    by_cases hp : pat.isPrefixOf ([] : List Char) = true
    · rw [findSub, if_pos hp] at h
      injection h with h
      subst h
      simpa using hp
    · rw [findSub, if_neg hp] at h
      simp at h
  | cons c cs ih =>
    intro pos h
    by_cases hp : pat.isPrefixOf (c :: cs) = true
    · rw [findSub, if_pos hp] at h
      injection h with h
      subst h
      simpa using hp
    · rw [findSub, if_neg hp] at h
      obtain ⟨p, hfind, hpos⟩ := Option.map_eq_some'.mp h
      subst hpos
      exact ih hfind

theorem findSub_min {pat : List Char} :
    ∀ {l : List Char} {pos : Nat}, findSub pat l = some pos →
      ∀ q, q < pos → pat.isPrefixOf (l.drop q) = false := by
  intro l
  induction l with
  | nil =>
    intro pos h q hq
    by_cases hp : pat.isPrefixOf ([] : List Char) = true
    · rw [findSub, if_pos hp] at h
      injection h with h
      omega
    · rw [findSub, if_neg hp] at h
      simp at h
  | cons c cs ih =>
    intro pos h q hq
    by_cases hp : pat.isPrefixOf (c :: cs) = true
    · rw [findSub, if_pos hp] at h
      injection h with h
      omega
    · rw [findSub, if_neg hp] at h
      obtain ⟨p, hfind, hpos⟩ := Option.map_eq_some'.mp h
      subst hpos
      cases q with
      | zero =>
        simp only [Bool.not_eq_true] at hp
        simpa using hp
      | succ q' => exact ih hfind q' (by omega)

theorem isPrefixOf_eq_append {pat l : List Char} (h : pat.isPrefixOf l = true) :
    l = pat ++ l.drop pat.length := by
  obtain ⟨t, rfl⟩ := List.isPrefixOf_iff_prefix.mp h
  rw [List.drop_left]

theorem findSub_decomp {pat l : List Char} {pos : Nat} (hne : pat ≠ [])
    (h : findSub pat l = some pos) :
    l = l.take pos ++ pat ++ l.drop (pos + pat.length) ∧
      (l.take pos).length = pos := by
  have hpre := findSub_isPrefixOf h
  have hple : pos ≤ l.length := by
    by_contra hgt
    push_neg at hgt
    have hnil : l.drop pos = [] := List.drop_eq_nil_iff.mpr (by omega)
    rw [hnil] at hpre
    cases pat with
    | nil => exact hne rfl
    | cons p ps => simp [List.isPrefixOf] at hpre
  constructor
  · calc l = l.take pos ++ l.drop pos := (List.take_append_drop pos l).symm
      _ = l.take pos ++ (pat ++ (l.drop pos).drop pat.length) := by
            rw [← isPrefixOf_eq_append hpre]
      _ = l.take pos ++ (pat ++ l.drop (pos + pat.length)) := by
            rw [List.drop_drop]
      _ = l.take pos ++ pat ++ l.drop (pos + pat.length) := by
            rw [List.append_assoc]
  · rw [List.length_take]
    exact Nat.min_eq_left hple

/-- Claim C5: slug extraction. When the input, stripped of trailing `'/'`,
contains the `"/scraps/"` marker at first position `pos`, the extraction
succeeds with exactly the part of the stripped input following that marker:
the stripped input decomposes as a prefix of length `pos`, the marker, and
the returned identifier, and no earlier position carries the marker. When the
stripped input has no marker and is non-empty, the extraction returns the
stripped input itself. The claim's three concrete examples close the
statement. -/
theorem C5_slug_extraction :
    (∀ (input : String) (pos : Nat),
      findSub scrapsMarker (trimEndSlashes input.data) = some pos →
      extract_slug input =
        .ok ⟨(trimEndSlashes input.data).drop (pos + 8)⟩ ∧
      trimEndSlashes input.data =
        (trimEndSlashes input.data).take pos ++ scrapsMarker
          ++ (trimEndSlashes input.data).drop (pos + 8) ∧
      ((trimEndSlashes input.data).take pos).length = pos ∧
      (∀ q, q < pos →
        scrapsMarker.isPrefixOf ((trimEndSlashes input.data).drop q) = false)) ∧
    (∀ input : String,
      findSub scrapsMarker (trimEndSlashes input.data) = none →
      trimEndSlashes input.data ≠ [] →
      extract_slug input = .ok ⟨trimEndSlashes input.data⟩) ∧
    extract_slug "https://zenn.dev/foo/scraps/barbaz" = .ok "barbaz" ∧
    extract_slug "https://example.com/scraps/slug/" = .ok "slug" ∧
    extract_slug "barbaz" = .ok "barbaz" := by
  refine ⟨?_, ?_, by decide, by decide, by decide⟩
  · intro input pos h
    have hne : scrapsMarker ≠ [] := by decide
    have hd := findSub_decomp hne h
    refine ⟨?_, ?_, hd.2, findSub_min h⟩
    · simp only [extract_slug, h]
    · have hd1 := hd.1
      rw [show scrapsMarker.length = 8 from rfl] at hd1
      exact hd1
  · intro input h hne
    have hfalse : (trimEndSlashes input.data).isEmpty = false := by
      cases htr : trimEndSlashes input.data with
      | nil => exact absurd htr hne
      | cons a as => rfl
    simp only [extract_slug, h, hfalse]
    rfl

/-- Witness for C5's marker clause at the claim's first example. -/
theorem C5_slug_extraction_witness :
    extract_slug "https://zenn.dev/foo/scraps/barbaz" =
      .ok ⟨(trimEndSlashes "https://zenn.dev/foo/scraps/barbaz".data).drop (20 + 8)⟩ :=
  (C5_slug_extraction.1 "https://zenn.dev/foo/scraps/barbaz" 20 (by decide)).1

/-- Claim C6: slug extraction fails — necessarily with the `BadSlug` error,
the spec's `InvalidIdentifier` — exactly when the input stripped of trailing
`'/'` is empty; every other input succeeds. -/
theorem C6_empty_slug_error :
    ∀ input : String,
      (extract_slug input = .error AppError.BadSlug ↔
        trimEndSlashes input.data = []) ∧
      (∀ e, extract_slug input = .error e → e = AppError.BadSlug) ∧
      (trimEndSlashes input.data ≠ [] → ∃ s, extract_slug input = .ok s) := by
  intro input
  cases hfind : findSub scrapsMarker (trimEndSlashes input.data) with
  | some pos =>
    have hnonempty : trimEndSlashes input.data ≠ [] := by
      intro hnil
      rw [hnil] at hfind
      rw [show findSub scrapsMarker ([] : List Char) = none from rfl] at hfind
      simp at hfind
    have hok : extract_slug input =
        .ok ⟨(trimEndSlashes input.data).drop (pos + 8)⟩ := by
      simp only [extract_slug, hfind]
    refine ⟨⟨?_, ?_⟩, ?_, fun _ => ⟨_, hok⟩⟩
    · intro hcontra
      rw [hok] at hcontra
      exact absurd hcontra (by simp)
    · intro hnil
      exact absurd hnil hnonempty
    · intro e he
      rw [hok] at he
      exact absurd he (by simp)
  | none =>
    cases htr : trimEndSlashes input.data with
    | nil =>
      have herr : extract_slug input = .error AppError.BadSlug := by
        simp only [extract_slug, htr]
        rfl
      exact ⟨⟨fun _ => rfl, fun _ => herr⟩,
        fun e he => by rw [herr] at he; exact (Except.error.inj he).symm,
        fun hne => absurd rfl hne⟩
    | cons a as =>
      rw [htr] at hfind
      have hok : extract_slug input = .ok ⟨a :: as⟩ := by
        simp only [extract_slug, htr, hfind]
        rfl
      refine ⟨⟨?_, ?_⟩, ?_, fun _ => ⟨_, hok⟩⟩
      · intro hcontra
        rw [hok] at hcontra
        exact absurd hcontra (by simp)
      · intro hnil
        exact absurd hnil (by simp)
      · intro e he
        rw [hok] at he
        exact absurd he (by simp)

/-- Witness for C6 at a succeeding and at a failing concrete input. -/
theorem C6_empty_slug_error_witness :
    (∃ s, extract_slug "barbaz" = .ok s) ∧
    extract_slug "///" = .error AppError.BadSlug :=
  ⟨(C6_empty_slug_error "barbaz").2.2 (by decide),
   ((C6_empty_slug_error "///").1).mpr (by decide)⟩


end ZennScrap
